import Mathlib

/-!
# Verification of the `twobotschat` orchestration core

A shallow embedding of the two-agent chat program:

* `src/twobotschat/orchestrator.py` — turn orchestration, output validation,
  context compaction, termination predicate;
* `src/twobotschat/ollama_client.py` — streaming chat client with endpoint
  fallback;
* `src/twobotschat/agents.py` — prompt-envelope construction.

The model-backed chat endpoint and Python's `json` module are external to the
repository; they are abstracted as oracle inputs (a response paired with its
decode result).  All other definitions are direct translations of the Python
source.
-/

namespace TwoBots

/-- A decoded JSON value as produced by Python's `json.loads`.  Python keeps
the int/float distinction for JSON numbers; floats are modelled as rationals
(every decimal literal is rational, and the only operation the program applies
to a float is truncation via `int()`). -/
inductive JValue where
  | jnull
  | jbool (b : Bool)
  | jint (n : Int)
  | jfloat (q : Rat)
  | jstr (s : String)
  | jarr (items : List JValue)
  | jobj (fields : List (String × JValue))

/-- Lookup in a decoded JSON object.  Python builds a `dict`, where a later
duplicate key overwrites an earlier one, so the *last* binding wins. -/
def jlookup (fields : List (String × JValue)) (key : String) : Option JValue :=
  fields.foldl (fun acc kv => if kv.1 = key then some kv.2 else acc) none

/-- Python `key in d` for a decoded JSON object. -/
def jhasKey (fields : List (String × JValue)) (key : String) : Bool :=
  fields.any (fun kv => kv.1 == key)

/-- Python truthiness of a decoded JSON value. -/
def pyTruthy : JValue → Bool
  | .jnull => false
  | .jbool b => b
  | .jint n => n != 0
  | .jfloat q => q != 0
  | .jstr s => !s.isEmpty
  | .jarr items => !items.isEmpty
  | .jobj fields => !fields.isEmpty

/-- Python truthiness of an `Optional[str]` (used on `parse_error` fields and
on the `summary`/`topic` arguments): `None` and `""` are falsy. -/
def truthyOptStr : Option String → Bool
  | none => false
  | some s => !s.isEmpty

/-- One or more ASCII digits, allowing a single underscore between two digits
(Python's numeric-literal grouping accepted by `int(str)`). -/
def digitsGrouped : List Char → Bool
  | [] => false
  | c :: rest => c.isDigit && digitsGroupedTail rest
where
  digitsGroupedTail : List Char → Bool
    | [] => true
    | '_' :: c :: rest => c.isDigit && digitsGroupedTail rest
    | c :: rest => c.isDigit && digitsGroupedTail rest

/-- Numeric value of a digit string, ignoring underscores. -/
def digitsToNat (cs : List Char) : Nat :=
  cs.foldl (fun acc c => if c = '_' then acc else acc * 10 + (c.toNat - '0'.toNat)) 0

/-- Strip leading and trailing whitespace (Python `str.strip()`). -/
def stripChars (cs : List Char) : List Char :=
  ((cs.dropWhile Char.isWhitespace).reverse.dropWhile Char.isWhitespace).reverse

/-- Python `int(s)` for a string `s`: strip surrounding whitespace, optional
sign, base-10 digits with underscore grouping; anything else raises
`ValueError`. -/
def pyIntOfString (s : String) : Except String Int :=
  match stripChars s.data with
  | '+' :: rest =>
      if digitsGrouped rest then .ok (digitsToNat rest) else .error "ValueError"
  | '-' :: rest =>
      if digitsGrouped rest then .ok (-(digitsToNat rest : Int)) else .error "ValueError"
  | cs =>
      if digitsGrouped cs then .ok (digitsToNat cs) else .error "ValueError"

/-- Truncation toward zero, the behaviour of Python `int()` on a float. -/
def ratTrunc (q : Rat) : Int :=
  Int.tdiv q.num (q.den : Int)

/-- Python `int(x)` on a decoded JSON value; `.error` covers both `TypeError`
and `ValueError` (the source catches the two together). -/
def pyInt : JValue → Except String Int
  | .jbool b => .ok (if b then 1 else 0)
  | .jint n => .ok n
  | .jfloat q => .ok (ratTrunc q)
  | .jstr s => pyIntOfString s
  | .jnull => .error "TypeError"
  | .jarr _ => .error "TypeError"
  | .jobj _ => .error "TypeError"

/-- Is the value a decoded JSON string (Python `isinstance(x, str)`)? -/
def isJStr : JValue → Bool
  | .jstr _ => true
  | _ => false

/-- The string carried by a decoded JSON string (only used after `isJStr`). -/
def asJStr : JValue → String
  | .jstr s => s
  | _ => ""

/-- Python `isinstance(x, list) and all(isinstance(i, str) for i in x)`. -/
def isStrList : JValue → Bool
  | .jarr items => items.all isJStr
  | _ => false

/-- The four-field structured payload.  The source keeps the whole decoded
dict; only these four fields are ever read downstream, so the embedding
projects onto them, with `satisfaction` already normalised to an integer
(mirroring `data["satisfaction"] = satisfaction`). -/
structure Payload where
  reply_zh_tw : String
  satisfaction : Int
  key_points : List String
  needs_from_other : String
  deriving Repr, DecidableEq

/-- `orchestrator.ParseResult`. -/
structure ParseResult where
  data : Option Payload
  error : Option String
  deriving Repr, DecidableEq

/-- `Orchestrator._parse_output`, taken after `json.loads`: the argument is
the decode result of the raw text (`.error e` = `json.JSONDecodeError` with
message `e`, which the source converts to `str(exc)`). -/
def parse_output (decoded : Except String JValue) : ParseResult :=
  match decoded with
  | .error e => ⟨none, some e⟩
  | .ok data =>
    match data with
    | .jobj fields =>
      if ¬ jhasKey fields "reply_zh_tw" then
        ⟨none, some "Missing key: reply_zh_tw"⟩
      else if ¬ jhasKey fields "satisfaction" then
        ⟨none, some "Missing key: satisfaction"⟩
      else if ¬ jhasKey fields "key_points" then
        ⟨none, some "Missing key: key_points"⟩
      else if ¬ jhasKey fields "needs_from_other" then
        ⟨none, some "Missing key: needs_from_other"⟩
      else
        let reply := (jlookup fields "reply_zh_tw").getD .jnull
        let satv := (jlookup fields "satisfaction").getD .jnull
        let kp := (jlookup fields "key_points").getD .jnull
        let needs := (jlookup fields "needs_from_other").getD .jnull
        if ¬ isJStr reply then ⟨none, some "reply_zh_tw must be string."⟩
        else if ¬ isJStr needs then ⟨none, some "needs_from_other must be string."⟩
        else if ¬ isStrList kp then ⟨none, some "key_points must be list[str]."⟩
        else
          match pyInt satv with
          | .error _ => ⟨none, some "satisfaction must be int 0-100."⟩
          | .ok n =>
            if n < 0 ∨ 100 < n then ⟨none, some "satisfaction out of range."⟩
            else
              ⟨some ⟨asJStr reply, n,
                     (match kp with
                      | .jarr items => items.map asJStr
                      | _ => []),
                     asJStr needs⟩, none⟩
    | _ => ⟨none, some "JSON is not an object."⟩

/-- One ConversationEntry as built in `Orchestrator._run_agent_turn`.  The
`timestamp` and `raw_lines` fields are carried by the source entry but never
read by any control flow (they are only serialised at run end), so they are
omitted.  `satisfaction`, `key_points` and `needs_from_other` mirror the
source's projections out of the parsed dict. -/
structure Entry where
  turn : Nat
  agent : String
  attempt : Nat
  raw_output : String
  parse_error : Option String
  parsed : Option Payload
  satisfaction : Option Int
  key_points : Option (List String)
  needs_from_other : Option String
  deriving Repr, DecidableEq

/-- The entry dict literal of `_run_agent_turn`. -/
def mkEntry (turn : Nat) (agentName : String) (attempt : Nat) (raw : String)
    (pr : ParseResult) : Entry :=
  { turn := turn
    agent := agentName
    attempt := attempt
    raw_output := raw
    parse_error := pr.error
    parsed := pr.data
    satisfaction := pr.data.map Payload.satisfaction
    key_points := pr.data.map Payload.key_points
    needs_from_other := pr.data.map Payload.needs_from_other }

/-- The outcome of one streaming chat call: the aggregated response text and
its `json.loads` result.  The decoder is external to the repository, so the
oracle supplies both (linked in any actual execution). -/
structure ChatOutcome where
  output : String
  decoded : Except String JValue

/-- Oracle for the model-backed chat endpoint: what the call returns for a
given round number, agent name and attempt number. -/
def Env : Type :=
  Nat → String → Nat → ChatOutcome

/-- The entry recorded for one attempt of one agent turn. -/
def attemptEntry (env : Env) (turn : Nat) (agentName : String) (attempt : Nat) :
    Entry :=
  mkEntry turn agentName attempt (env turn agentName attempt).output
    (parse_output (env turn agentName attempt).decoded)

/-- `Orchestrator._run_agent_turn`, with the `[1, 2]` attempt loop unrolled.
The prompt build and the streaming call have no effect on orchestrator state
(the response is abstracted by `env`), so only the parse/append/return logic
appears.  Returns the entry the source returns, then the updated transcript,
then the updated context. -/
def run_agent_turn (env : Env) (turn : Nat) (agentName : String)
    (transcript context : List Entry) : Entry × List Entry × List Entry :=
  let e1 := attemptEntry env turn agentName 1
  if truthyOptStr e1.parse_error then
    let transcript1 := transcript ++ [e1]
    let e2 := attemptEntry env turn agentName 2
    if truthyOptStr e2.parse_error then
      (e2, transcript1 ++ [e2], context ++ [e2])
    else
      (e2, transcript1 ++ [e2], context ++ [e2])
  else
    (e1, transcript ++ [e1], context ++ [e1])

/-- The entry an agent turn returns; by construction it does not depend on
the transcript or context. -/
def turn_entry (env : Env) (turn : Nat) (agentName : String) : Entry :=
  let e1 := attemptEntry env turn agentName 1
  if truthyOptStr e1.parse_error then attemptEntry env turn agentName 2 else e1

/-- `Orchestrator._latest_entry`: newest transcript entry of the agent,
valid or not. -/
def latest_entry (transcript : List Entry) (agentName : String) : Option Entry :=
  transcript.reverse.find? (fun e => e.agent == agentName)

/-- `Orchestrator._get_satisfaction`. -/
def get_satisfaction : Option Entry → Option Int
  | none => none
  | some e => if truthyOptStr e.parse_error then none else e.satisfaction

/-- The orchestrator configuration (constructor arguments that the control
flow reads; the CLI accepts any integer for the numeric fields). -/
structure Config where
  max_turns : Int
  min_satisfaction : Int
  stable_rounds : Int
  summary_keep_last : Int
  summary_max_points : Int
  initial_user_prompt : String
  topic : String

/-- `keep = max(0, self.summary_keep_last)`. -/
def contextKeep (cfg : Config) : Nat :=
  (max 0 cfg.summary_keep_last).toNat

/-- The recent tail of the context (`[]` when `keep == 0`, else
`context[-keep:]`). -/
def contextRecent (cfg : Config) (context : List Entry) : List Entry :=
  if contextKeep cfg = 0 then []
  else context.drop (context.length - contextKeep cfg)

/-- The older part of the context (everything when `keep == 0`, else
`context[:-keep]`). -/
def contextOlder (cfg : Config) (context : List Entry) : List Entry :=
  if contextKeep cfg = 0 then context
  else context.take (context.length - contextKeep cfg)

/-- One iteration of the point-collection loop of
`_summarize_and_trim_context`: skip truthy parse errors, take
`parsed.get("key_points") or entry.get("key_points") or []`, extend with it
when non-empty, else fall back to `parsed.get("reply_zh_tw") or ""`. -/
def collectStep (points : List String) (e : Entry) : List String :=
  if truthyOptStr e.parse_error then points
  else
    let parsedKp : List String :=
      match e.parsed with
      | some p => p.key_points
      | none => []
    let entryKp : List String := e.key_points.getD []
    let keyPoints :=
      if ¬ parsedKp.isEmpty then parsedKp
      else if ¬ entryKp.isEmpty then entryKp
      else []
    if ¬ keyPoints.isEmpty then points ++ keyPoints
    else
      let reply :=
        match e.parsed with
        | some p => p.reply_zh_tw
        | none => ""
      if ¬ reply.isEmpty then points ++ [reply] else points

/-- The point-collection loop of `_summarize_and_trim_context`. -/
def collectPoints (older : List Entry) : List String :=
  older.foldl collectStep []

/-- `points[-n:]`. -/
def lastN (n : Nat) (xs : List String) : List String :=
  xs.drop (xs.length - n)

/-- `Orchestrator._summarize_and_trim_context`. -/
def summarize_and_trim_context (cfg : Config) (context : List Entry) :
    Option String × List Entry :=
  if context.isEmpty then (none, [])
  else
    let recent := contextRecent cfg context
    let older := contextOlder cfg context
    if older.isEmpty then (none, recent)
    else
      let points := collectPoints older
      if points.isEmpty then (none, recent)
      else
        let points :=
          if 0 < cfg.summary_max_points then
            lastN cfg.summary_max_points.toNat points
          else points
        (some (String.intercalate "\n" (points.map (fun p => "- " ++ p))), recent)

/-- A role-tagged chat message. -/
structure Message where
  role : String
  content : String
  deriving Repr, DecidableEq

/-- `agents.AgentConfig`. -/
structure AgentConfig where
  name : String
  system_prompt : String
  deriving Repr, DecidableEq

/-- The system-message head of the envelope built by `agents.build_messages`
(persona, optional strict-JSON directive, optional topic, optional summary). -/
def msgHeader (agent : AgentConfig) (strict_json : Bool)
    (summary : Option String) (topic : Option String) : List Message :=
  let messages := [⟨"system", agent.system_prompt⟩]
  let messages :=
    if strict_json then
      messages ++ [⟨"system", "重要：只能輸出嚴格 JSON，不能有任何額外字元。"⟩]
    else messages
  let messages :=
    if truthyOptStr topic then
      messages ++ [⟨"system", "主題：" ++ topic.getD ""⟩]
    else messages
  if truthyOptStr summary then
    messages ++ [⟨"system", "對話摘要：\n" ++ summary.getD ""⟩]
  else messages

/-- How one transcript entry is rendered inside the envelope: the speaking
agent's own entries as assistant turns, the other agent's as user turns
(with a warning header when that entry was a parse failure). -/
def renderEntry (agent : AgentConfig) (e : Entry) : Message :=
  if e.agent == agent.name then ⟨"assistant", e.raw_output⟩
  else
    let content :=
      if truthyOptStr e.parse_error then
        "（注意：對方上一輪輸出格式錯誤，以下是原始輸出）\n" ++ e.raw_output
      else e.raw_output
    ⟨"user", e.agent ++ " 說：\n" ++ content⟩

/-- `agents.build_messages`.  `transcript` is the recent tail handed over by
the orchestrator. -/
def build_messages (agent : AgentConfig) (transcript : List Entry)
    (initial_user_prompt : String) (strict_json : Bool)
    (summary : Option String) (topic : Option String) : List Message :=
  let messages := msgHeader agent strict_json summary topic
  if transcript.isEmpty then messages ++ [⟨"user", initial_user_prompt⟩]
  else messages ++ transcript.map (renderEntry agent)

/-- The mutable state of `Orchestrator.run`'s loop.  `lastValid` models the
`last_valid` dict. -/
structure LoopState where
  transcript : List Entry
  context : List Entry
  stableCount : Nat
  lastValid : String → Option Entry

/-- One agent's turn inside the round loop, including the
`last_valid[agent_name] = parsed_entry` update (the returned entry dict is
always truthy, so the guard is just the parse-error check). -/
def stepAgent (env : Env) (turn : Nat) (agentName : String) (st : LoopState) :
    LoopState :=
  let r := run_agent_turn env turn agentName st.transcript st.context
  { st with
    transcript := r.2.1
    context := r.2.2
    lastValid :=
      if truthyOptStr r.1.parse_error then st.lastValid
      else fun n => if n = agentName then some r.1 else st.lastValid n }

/-- One full round of `Orchestrator.run`: Agent A, then Agent B, then the
termination-predicate update of `stable_count`. -/
def stepRound (cfg : Config) (env : Env) (turn : Nat) (st : LoopState) :
    LoopState :=
  let st1 := stepAgent env turn "Agent A" st
  let st2 := stepAgent env turn "Agent B" st1
  let satA := get_satisfaction (latest_entry st2.transcript "Agent A")
  let satB := get_satisfaction (latest_entry st2.transcript "Agent B")
  let stable :=
    match satA, satB with
    | some a, some b =>
      if cfg.min_satisfaction ≤ a ∧ cfg.min_satisfaction ≤ b then
        st2.stableCount + 1
      else 0
    | _, _ => 0
  { st2 with stableCount := stable }

/-- The `for turn in range(1, max_turns + 1)` loop with its early `break`:
`n` is the number of rounds still allowed, `turn` the current round number.
Returns the final state, whether the loop stopped via the stability `break`,
and the number of the last executed round. -/
def runAux (cfg : Config) (env : Env) :
    Nat → Nat → LoopState → LoopState × Bool × Nat
  | 0, turn, st => (st, false, turn - 1)
  | n + 1, turn, st =>
    let st' := stepRound cfg env turn st
    if cfg.stable_rounds ≤ (st'.stableCount : Int) then (st', true, turn)
    else runAux cfg env n (turn + 1) st'

/-- The state before the loop starts. -/
def initState : LoopState :=
  { transcript := [], context := [], stableCount := 0, lastValid := fun _ => none }

/-- The observable outcome of `Orchestrator.run`: `stoppedByStability`
distinguishes the stability stop reason from the budget-exhausted one. -/
structure RunResult where
  transcript : List Entry
  context : List Entry
  stableCount : Nat
  lastValid : String → Option Entry
  stoppedByStability : Bool
  turnsExecuted : Nat

/-- `Orchestrator.run` (printing and transcript persistence are I/O and do
not feed back into the loop). -/
def run (cfg : Config) (env : Env) : RunResult :=
  let r := runAux cfg env cfg.max_turns.toNat 1 initState
  { transcript := r.1.transcript
    context := r.1.context
    stableCount := r.1.stableCount
    lastValid := r.1.lastValid
    stoppedByStability := r.2.1
    turnsExecuted := r.2.2 }

/-- Does the first list occur as the initial segment of the second? -/
def headMatches : List Char → List Char → Bool
  | [], _ => true
  | _ :: _, [] => false
  | p :: ps, c :: cs => p == c && headMatches ps cs

/-- Does `key` occur as a contiguous segment (Python `key in s` on strings)? -/
def containsSeg (key : List Char) : List Char → Bool
  | [] => headMatches key []
  | c :: cs => headMatches key (c :: cs) || containsSeg key cs

/-- Python `"error" in data` on a decoded JSON value (`TypeError` when the
value is not a container; `in` on a string is substring search). -/
def pyContains (key : String) : JValue → Except String Bool
  | .jobj fields => .ok (jhasKey fields key)
  | .jarr items =>
    .ok (items.any (fun v =>
      match v with
      | .jstr s => s == key
      | _ => false))
  | .jstr s => .ok (containsSeg key.data s.data)
  | _ => .error "TypeError"

/-- Python `data[key]` for a string key (used for `data["error"]`). -/
def pySubscript (v : JValue) (key : String) : Except String JValue :=
  match v with
  | .jobj fields =>
    match jlookup fields key with
    | some x => .ok x
    | none => .error "KeyError"
  | _ => .error "TypeError"

/-- Python `d.get(key, default)`: `AttributeError` when `d` is not a dict. -/
def dictGet (v : JValue) (key : String) (dflt : JValue) : Except String JValue :=
  match v with
  | .jobj fields => .ok ((jlookup fields key).getD dflt)
  | _ => .error "AttributeError"

/-- Python `x[0]`, as applied to the `choices` value of a fallback-dialect
record. -/
def indexZero : JValue → Except String JValue
  | .jarr [] => .error "IndexError"
  | .jarr (x :: _) => .ok x
  | .jstr s =>
    if s.isEmpty then .error "IndexError" else .ok (.jstr (String.singleton s.front))
  | .jobj _ => .error "KeyError"
  | _ => .error "TypeError"

/-- The incremental text fragment of one decoded stream record:
`choices[0].delta.content` under the fallback dialect,
`message.content` under the primary dialect. -/
def extractChunk (usingOpenai : Bool) (data : JValue) : Except String JValue :=
  if usingOpenai then
    match dictGet data "choices" (.jarr [.jobj []]) with
    | .error e => .error e
    | .ok choices =>
      match indexZero choices with
      | .error e => .error e
      | .ok c0 =>
        match dictGet c0 "delta" (.jobj []) with
        | .error e => .error e
        | .ok delta => dictGet delta "content" (.jstr "")
  else
    match dictGet data "message" (.jobj []) with
    | .error e => .error e
    | .ok msg => dictGet msg "content" (.jstr "")

/-- What one iteration of the line loop in `OllamaClient.chat` does with the
running state `(full_text, raw_lines, callback invocations)`. -/
inductive LineOutcome where
  | next (fullText : String) (rawLines : List String) (calls : List String)
  | stop (fullText : String) (rawLines : List String) (calls : List String)
  | fail (e : String)

/-- The body of the `for line in response.iter_lines(...)` loop, for a single
line.  `jloads` abstracts `json.loads` on one line; the callback `on_chunk`
is modelled by recording its arguments in order in `calls`. -/
def lineStep (jloads : String → Option JValue) (usingOpenai : Bool)
    (line : String) (fullText : String) (rawLines : List String)
    (calls : List String) : LineOutcome :=
  if line.isEmpty then .next fullText rawLines calls
  else
    let isData := usingOpenai && headMatches "data:".data line.data
    let line1 :=
      if isData then String.mk (stripChars (line.data.drop 5)) else line
    if isData && line1 == "[DONE]" then .stop fullText rawLines calls
    else
      let rawLines1 := rawLines ++ [line1]
      match jloads line1 with
      | none => .next fullText rawLines1 calls
      | some data =>
        match pyContains "error" data with
        | .error e => .fail e
        | .ok true =>
          match pySubscript data "error" with
          | .error e => .fail e
          | .ok _ => .fail "RuntimeError"
        | .ok false =>
          match extractChunk usingOpenai data with
          | .error e => .fail e
          | .ok chunk =>
            let step2 : Except String (String × List String) :=
              if pyTruthy chunk then
                match chunk with
                | .jstr s => .ok (fullText ++ s, calls ++ [s])
                | _ => .error "TypeError"
              else .ok (fullText, calls)
            match step2 with
            | .error e => .fail e
            | .ok (fullText1, calls1) =>
              let doneFlag : Except String Bool :=
                if usingOpenai then .ok false
                else (dictGet data "done" .jnull).map pyTruthy
              match doneFlag with
              | .error e => .fail e
              | .ok true => .stop fullText1 rawLines1 calls1
              | .ok false => .next fullText1 rawLines1 calls1

/-- The full line loop of `OllamaClient.chat`: aggregate the fragments,
record the raw lines, record each callback invocation. -/
def chatStreamAux (jloads : String → Option JValue) (usingOpenai : Bool) :
    List String → String → List String → List String →
    Except String (String × List String × List String)
  | [], fullText, rawLines, calls => .ok (fullText, rawLines, calls)
  | line :: rest, fullText, rawLines, calls =>
    match lineStep jloads usingOpenai line fullText rawLines calls with
    | .next f r c => chatStreamAux jloads usingOpenai rest f r c
    | .stop f r c => .ok (f, r, c)
    | .fail e => .error e

/-- `requests` raises on a 4xx or 5xx status in `raise_for_status`. -/
def nonSuccess (status : Nat) : Bool :=
  400 ≤ status && status < 600

/-- An HTTP response as the client observes it: status code plus the decoded
lines of the streaming body. -/
structure HttpResponse where
  status_code : Nat
  lines : List String

/-- One issued POST request: endpoint path plus the JSON payload fields.
`extra` carries the generation options, nested under an `"options"` key for
the primary dialect and merged at top level (`openai_payload.update(options)`)
for the fallback dialect. -/
structure ChatRequest where
  path : String
  model : String
  messages : List Message
  stream : Bool
  extra : List (String × JValue)

/-- Python truthiness of the `options` argument (`None` or `{}` is falsy). -/
def optionsTruthy (options : Option (List (String × JValue))) : Bool :=
  match options with
  | some o => !o.isEmpty
  | none => false

/-- The options layout of the primary dialect: nested under an `"options"`
key (`payload["options"] = options`), and absent when falsy. -/
def nestedOptions (options : Option (List (String × JValue))) :
    List (String × JValue) :=
  if optionsTruthy options then [("options", .jobj (options.getD []))] else []

/-- The options layout of the fallback dialect: merged at top level
(`openai_payload.update(options)`), and absent when falsy. -/
def flatOptions (options : Option (List (String × JValue))) :
    List (String × JValue) :=
  if optionsTruthy options then options.getD [] else []

/-- `OllamaClient.chat`.  The two `HttpResponse` values are oracle inputs:
what the primary endpoint answers, and what the fallback endpoint would
answer (consulted only on a 404).  Returns the list of issued requests and
the call outcome `(full_text, raw_lines, callback invocations)`. -/
def chat (model : String) (messages : List Message)
    (options : Option (List (String × JValue)))
    (jloads : String → Option JValue)
    (primary fallbackResp : HttpResponse) :
    List ChatRequest × Except String (String × List String × List String) :=
  let req1 : ChatRequest :=
    { path := "/api/chat", model := model, messages := messages, stream := true
      extra := nestedOptions options }
  if primary.status_code = 404 then
    let req2 : ChatRequest :=
      { path := "/v1/chat/completions", model := model, messages := messages
        stream := true
        extra := flatOptions options }
    if nonSuccess fallbackResp.status_code then ([req1, req2], .error "HTTPError")
    else ([req1, req2], chatStreamAux jloads true fallbackResp.lines "" [] [])
  else
    if nonSuccess primary.status_code then ([req1], .error "HTTPError")
    else ([req1], chatStreamAux jloads false primary.lines "" [] [])

theorem attemptEntry_agent (env : Env) (t : Nat) (a : String) (k : Nat) :
    (attemptEntry env t a k).agent = a := rfl

theorem run_agent_turn_ok (env : Env) (t : Nat) (a : String)
    (tr ctx : List Entry)
    (h : truthyOptStr (attemptEntry env t a 1).parse_error = false) :
    run_agent_turn env t a tr ctx =
      (attemptEntry env t a 1, tr ++ [attemptEntry env t a 1],
       ctx ++ [attemptEntry env t a 1]) := by
  simp [run_agent_turn, h]

theorem run_agent_turn_retry (env : Env) (t : Nat) (a : String)
    (tr ctx : List Entry)
    (h : truthyOptStr (attemptEntry env t a 1).parse_error = true) :
    run_agent_turn env t a tr ctx =
      (attemptEntry env t a 2,
       tr ++ [attemptEntry env t a 1, attemptEntry env t a 2],
       ctx ++ [attemptEntry env t a 2]) := by
  simp only [run_agent_turn, h, if_true]
  split <;> simp

theorem run_agent_turn_fst (env : Env) (t : Nat) (a : String)
    (tr ctx : List Entry) :
    (run_agent_turn env t a tr ctx).1 = turn_entry env t a := by
  by_cases h : truthyOptStr (attemptEntry env t a 1).parse_error
  · rw [run_agent_turn_retry env t a tr ctx h]
    simp [turn_entry, h]
  · rw [run_agent_turn_ok env t a tr ctx (by simpa using h)]
    simp [turn_entry, h]

theorem run_agent_turn_context (env : Env) (t : Nat) (a : String)
    (tr ctx : List Entry) :
    (run_agent_turn env t a tr ctx).2.2 = ctx ++ [turn_entry env t a] := by
  by_cases h : truthyOptStr (attemptEntry env t a 1).parse_error
  · rw [run_agent_turn_retry env t a tr ctx h]
    simp [turn_entry, h]
  · rw [run_agent_turn_ok env t a tr ctx (by simpa using h)]
    simp [turn_entry, h]

theorem latest_entry_turn_self (env : Env) (t : Nat) (a : String)
    (tr ctx : List Entry) :
    latest_entry (run_agent_turn env t a tr ctx).2.1 a =
      some (turn_entry env t a) := by
  by_cases h : truthyOptStr (attemptEntry env t a 1).parse_error
  · rw [run_agent_turn_retry env t a tr ctx h]
    simp [latest_entry, turn_entry, h, List.find?, attemptEntry_agent]
  · rw [run_agent_turn_ok env t a tr ctx (by simpa using h)]
    simp [latest_entry, turn_entry, h, List.find?, attemptEntry_agent]

theorem latest_entry_turn_other (env : Env) (t : Nat) (a b : String)
    (tr ctx : List Entry) (hab : b ≠ a) :
    latest_entry (run_agent_turn env t a tr ctx).2.1 b = latest_entry tr b := by
  have hba : (a == b) = false := beq_eq_false_iff_ne.mpr (Ne.symm hab)
  by_cases h : truthyOptStr (attemptEntry env t a 1).parse_error
  · rw [run_agent_turn_retry env t a tr ctx h]
    simp [latest_entry, List.find?, attemptEntry_agent, hba]
  · rw [run_agent_turn_ok env t a tr ctx (by simpa using h)]
    simp [latest_entry, List.find?, attemptEntry_agent, hba]

theorem stepAgent_transcript (env : Env) (t : Nat) (a : String)
    (st : LoopState) :
    (stepAgent env t a st).transcript =
      (run_agent_turn env t a st.transcript st.context).2.1 := rfl

theorem stepAgent_stableCount (env : Env) (t : Nat) (a : String)
    (st : LoopState) :
    (stepAgent env t a st).stableCount = st.stableCount := rfl

theorem latest_after_round_A (env : Env) (t : Nat) (st : LoopState) :
    latest_entry
        (stepAgent env t "Agent B" (stepAgent env t "Agent A" st)).transcript
        "Agent A" =
      some (turn_entry env t "Agent A") := by
  rw [stepAgent_transcript,
    latest_entry_turn_other env t "Agent B" "Agent A" _ _ (by decide),
    stepAgent_transcript, latest_entry_turn_self]

theorem latest_after_round_B (env : Env) (t : Nat) (st : LoopState) :
    latest_entry
        (stepAgent env t "Agent B" (stepAgent env t "Agent A" st)).transcript
        "Agent B" =
      some (turn_entry env t "Agent B") := by
  rw [stepAgent_transcript, latest_entry_turn_self]

theorem stepRound_latest_A (cfg : Config) (env : Env) (t : Nat)
    (st : LoopState) :
    latest_entry (stepRound cfg env t st).transcript "Agent A" =
      some (turn_entry env t "Agent A") :=
  latest_after_round_A env t st

theorem stepRound_latest_B (cfg : Config) (env : Env) (t : Nat)
    (st : LoopState) :
    latest_entry (stepRound cfg env t st).transcript "Agent B" =
      some (turn_entry env t "Agent B") :=
  latest_after_round_B env t st

/-- The per-round `stable_count` update, expressed through the entries the
two agent turns returned. -/
theorem stepRound_stableCount (cfg : Config) (env : Env) (t : Nat)
    (st : LoopState) :
    (stepRound cfg env t st).stableCount =
      match get_satisfaction (some (turn_entry env t "Agent A")),
            get_satisfaction (some (turn_entry env t "Agent B")) with
      | some a, some b =>
        if cfg.min_satisfaction ≤ a ∧ cfg.min_satisfaction ≤ b then
          st.stableCount + 1
        else 0
      | _, _ => 0 := by
  simp only [stepRound, latest_after_round_A, latest_after_round_B,
    stepAgent_stableCount]

/-- A syntactically valid model output carrying the given satisfaction. -/
def validOut (s : Int) : JValue :=
  .jobj [("reply_zh_tw", .jstr "r"), ("satisfaction", .jint s),
         ("key_points", .jarr [.jstr "k"]), ("needs_from_other", .jstr "n")]

/-- A chat outcome whose text parses successfully. -/
def goodChat (s : Int) : ChatOutcome :=
  ⟨"ok", .ok (validOut s)⟩

/-- A chat outcome whose text fails `json.loads`. -/
def badChat : ChatOutcome :=
  ⟨"oops", .error "Expecting value: line 1 column 1 (char 0)"⟩

/-- Environment for the stability/staleness scenarios: in round 2 Agent A
fails every attempt; every other call is valid with satisfaction 95. -/
def envStale : Env := fun t a _ =>
  if t = 2 ∧ a = "Agent A" then badChat else goodChat 95

/-- A configuration with threshold 90, two required stable rounds and a
budget of two rounds. -/
def cfgStale : Config :=
  { max_turns := 2, min_satisfaction := 90, stable_rounds := 2,
    summary_keep_last := 6, summary_max_points := 12,
    initial_user_prompt := "start", topic := "t" }

/-- Environment in which every call succeeds with satisfaction 95. -/
def envAll95 : Env := fun _ _ _ => goodChat 95

/-- Environment in which Agent A always fails and Agent B is always valid. -/
def envFailA : Env := fun _ a _ =>
  if a = "Agent A" then badChat else goodChat 95

/-- Like `cfgStale` but with a budget of five rounds. -/
def cfg5 : Config :=
  { cfgStale with max_turns := 5 }

theorem runAux_cont (cfg : Config) (env : Env) (n t : Nat) (st : LoopState)
    (h : ¬ cfg.stable_rounds ≤ ((stepRound cfg env t st).stableCount : Int)) :
    runAux cfg env (n + 1) t st =
      runAux cfg env n (t + 1) (stepRound cfg env t st) := by
  simp [runAux, h]

theorem runAux_stop (cfg : Config) (env : Env) (n t : Nat) (st : LoopState)
    (h : cfg.stable_rounds ≤ ((stepRound cfg env t st).stableCount : Int)) :
    runAux cfg env (n + 1) t st = (stepRound cfg env t st, true, t) := by
  simp [runAux, h]

/-- C1 counterexample.  Agent A's round-1 entry is valid with satisfaction
95 ≥ 90 and stays in the Transcript; in round 2 Agent A fails both attempts
while Agent B's round-2 entry is valid with satisfaction 95 ≥ 90.  The claim
predicts that round 2's evaluation still uses Agent A's older valid entry, so
the counter keeps incrementing (reaching `stable_rounds = 2` and stopping
with the stability reason).  The code instead evaluates Agent A's *latest*
entry — the failed round-2 one — so the counter resets to 0 and the run ends
on the budget. -/
theorem c1_counterexample :
    get_satisfaction (some (attemptEntry envStale 1 "Agent A" 1)) = some 95 ∧
    attemptEntry envStale 1 "Agent A" 1 ∈ (run cfgStale envStale).transcript ∧
    truthyOptStr (turn_entry envStale 2 "Agent A").parse_error = true ∧
    get_satisfaction (some (turn_entry envStale 2 "Agent B")) = some 95 ∧
    (run cfgStale envStale).stableCount = 0 ∧
    (run cfgStale envStale).stoppedByStability = false := by
  decide

/-- C1 (amended): the per-round termination evaluation uses each agent's
latest *transcript* entry, valid or not.  When an agent fails validation on
both attempts of a round, that round's evaluation sees the failed entry, its
satisfaction reads as `None`, and the consecutive-stable-round counter resets
to zero — stability cannot accrue from an older valid entry. -/
theorem c1_theorem (cfg : Config) (env : Env) (t : Nat) (st : LoopState)
    (h : truthyOptStr (turn_entry env t "Agent A").parse_error = true ∨
         truthyOptStr (turn_entry env t "Agent B").parse_error = true) :
    latest_entry (stepRound cfg env t st).transcript "Agent A" =
      some (turn_entry env t "Agent A") ∧
    latest_entry (stepRound cfg env t st).transcript "Agent B" =
      some (turn_entry env t "Agent B") ∧
    (stepRound cfg env t st).stableCount = 0 := by
  refine ⟨stepRound_latest_A cfg env t st, stepRound_latest_B cfg env t st, ?_⟩
  rw [stepRound_stableCount]
  rcases h with h | h
  · simp [get_satisfaction, h]
  · cases hA : get_satisfaction (some (turn_entry env t "Agent A")) <;>
      simp [get_satisfaction, h]

theorem c1_witness :
    (stepRound cfgStale envStale 2 initState).stableCount = 0 :=
  (c1_theorem cfgStale envStale 2 initState (Or.inl (by decide))).2.2

/-- C2: with `stable_rounds = 2`, a budget of at least two rounds, and both
agents' turns in rounds 1 and 2 returning valid entries with satisfaction at
or above the threshold, the run stops with the stability reason immediately
after round 2 — not after round 1, and without running to the budget. -/
theorem c2_theorem (cfg : Config) (env : Env)
    (hsr : cfg.stable_rounds = 2) (hmt : 2 ≤ cfg.max_turns)
    (hgood : ∀ t a, (t = 1 ∨ t = 2) → (a = "Agent A" ∨ a = "Agent B") →
      ∃ s, get_satisfaction (some (turn_entry env t a)) = some s ∧
        cfg.min_satisfaction ≤ s) :
    (run cfg env).stoppedByStability = true ∧
    (run cfg env).turnsExecuted = 2 := by
  obtain ⟨sa1, ha1, ha1m⟩ := hgood 1 "Agent A" (Or.inl rfl) (Or.inl rfl)
  obtain ⟨sb1, hb1, hb1m⟩ := hgood 1 "Agent B" (Or.inl rfl) (Or.inr rfl)
  obtain ⟨sa2, ha2, ha2m⟩ := hgood 2 "Agent A" (Or.inr rfl) (Or.inl rfl)
  obtain ⟨sb2, hb2, hb2m⟩ := hgood 2 "Agent B" (Or.inr rfl) (Or.inr rfl)
  have hst1 : (stepRound cfg env 1 initState).stableCount = 1 := by
    rw [stepRound_stableCount, ha1, hb1]
    simp [initState, ha1m, hb1m]
  have hst2 :
      (stepRound cfg env 2 (stepRound cfg env 1 initState)).stableCount = 2 := by
    rw [stepRound_stableCount, ha2, hb2]
    simp [hst1, ha2m, hb2m]
  obtain ⟨k, hk⟩ : ∃ k, cfg.max_turns.toNat = k + 1 + 1 :=
    ⟨cfg.max_turns.toNat - 2, by omega⟩
  have hrun : runAux cfg env cfg.max_turns.toNat 1 initState =
      (stepRound cfg env 2 (stepRound cfg env 1 initState), true, 2) := by
    rw [hk, runAux_cont cfg env (k + 1) 1 initState
        (by rw [hst1, hsr]; norm_num),
      runAux_stop cfg env k 2 (stepRound cfg env 1 initState)
        (by rw [hst2, hsr]; norm_num)]
  constructor <;> simp [run, hrun]

theorem c2_witness :
    (run cfg5 envAll95).stoppedByStability = true ∧
    (run cfg5 envAll95).turnsExecuted = 2 := by
  refine c2_theorem cfg5 envAll95 rfl (by norm_num [cfg5, cfgStale]) ?_
  intro t a _ _
  refine ⟨95, ?_, by norm_num [cfg5, cfgStale]⟩
  have hpv : parse_output (.ok (validOut 95)) =
      ⟨some ⟨"r", 95, ["k"], "n"⟩, none⟩ := rfl
  simp [turn_entry, attemptEntry, envAll95, goodChat, mkEntry, hpv,
    get_satisfaction, truthyOptStr]

/-- An agent turn in which both attempts failed validation. -/
def bothAttemptsFail (env : Env) (t : Nat) (a : String) : Prop :=
  truthyOptStr (attemptEntry env t a 1).parse_error = true ∧
  truthyOptStr (attemptEntry env t a 2).parse_error = true

/-- C3: a round in which one agent produced no valid entry in either attempt
resets the consecutive-stable-round counter to zero (even when the other
agent's entry is valid above the threshold, since the quantification covers
every environment), and the loop does not stop there: with a positive
`stable_rounds` it proceeds to round `t + 1` whenever budget remains. -/
theorem c3_theorem (cfg : Config) (env : Env) (st : LoopState) (t n : Nat)
    (hsr : 0 < cfg.stable_rounds)
    (h : bothAttemptsFail env t "Agent A" ∨ bothAttemptsFail env t "Agent B") :
    (stepRound cfg env t st).stableCount = 0 ∧
    runAux cfg env (n + 1) t st =
      runAux cfg env n (t + 1) (stepRound cfg env t st) := by
  have hreset : (stepRound cfg env t st).stableCount = 0 := by
    rw [stepRound_stableCount]
    rcases h with ⟨h1, h2⟩ | ⟨h1, h2⟩
    · have ht : truthyOptStr (turn_entry env t "Agent A").parse_error = true := by
        simp [turn_entry, h1, h2]
      simp [get_satisfaction, ht]
    · have ht : truthyOptStr (turn_entry env t "Agent B").parse_error = true := by
        simp [turn_entry, h1, h2]
      cases hA : get_satisfaction (some (turn_entry env t "Agent A")) <;>
        simp [get_satisfaction, ht]
  refine ⟨hreset, runAux_cont cfg env n t st ?_⟩
  rw [hreset]
  simp only [Nat.cast_zero]
  omega

theorem c3_witness :
    (stepRound cfgStale envFailA 1 initState).stableCount = 0 ∧
    runAux cfgStale envFailA 1 1 initState =
      runAux cfgStale envFailA 0 2 (stepRound cfgStale envFailA 1 initState) :=
  c3_theorem cfgStale envFailA initState 1 0 (by norm_num [cfgStale])
    (Or.inl ⟨by decide, by decide⟩)

/-- C4: per agent turn — every attempt's entry is appended to the Transcript
in order; the Context receives exactly the returned entry, i.e. the
successful one or the *second*-attempt failure (a first-attempt failure is
never appended to Context); a successful attempt 1 returns immediately with
no second attempt recorded; and the Context stays a sublist (ordered
subsequence) of the Transcript. -/
theorem c4_theorem (env : Env) (t : Nat) (a : String) (tr ctx : List Entry) :
    (truthyOptStr (attemptEntry env t a 1).parse_error = false →
      run_agent_turn env t a tr ctx =
        (attemptEntry env t a 1, tr ++ [attemptEntry env t a 1],
         ctx ++ [attemptEntry env t a 1])) ∧
    (truthyOptStr (attemptEntry env t a 1).parse_error = true →
      run_agent_turn env t a tr ctx =
        (attemptEntry env t a 2,
         tr ++ [attemptEntry env t a 1, attemptEntry env t a 2],
         ctx ++ [attemptEntry env t a 2])) ∧
    (ctx.Sublist tr →
      ((run_agent_turn env t a tr ctx).2.2).Sublist
        (run_agent_turn env t a tr ctx).2.1) := by
  refine ⟨run_agent_turn_ok env t a tr ctx, run_agent_turn_retry env t a tr ctx, ?_⟩
  intro hsub
  by_cases h : truthyOptStr (attemptEntry env t a 1).parse_error
  · rw [run_agent_turn_retry env t a tr ctx h]
    exact hsub.append ((List.Sublist.refl _).cons _)
  · rw [run_agent_turn_ok env t a tr ctx (by simpa using h)]
    exact hsub.append (List.Sublist.refl _)

theorem c4_witness :
    run_agent_turn envFailA 1 "Agent A" [] [] =
      (attemptEntry envFailA 1 "Agent A" 2,
       [attemptEntry envFailA 1 "Agent A" 1, attemptEntry envFailA 1 "Agent A" 2],
       [attemptEntry envFailA 1 "Agent A" 2]) := by
  have h := (c4_theorem envFailA 1 "Agent A" [] []).2.1 (by decide)
  simpa using h

/-- A decoded payload object carrying the four required fields with a
well-typed reply, key-point list and needs-from-other value, and an
arbitrary satisfaction value. -/
def payloadObj (reply : String) (sat : JValue) (kp : List String)
    (needs : String) : JValue :=
  .jobj [("reply_zh_tw", .jstr reply), ("satisfaction", sat),
         ("key_points", .jarr (kp.map .jstr)), ("needs_from_other", .jstr needs)]

theorem isStrList_map (kp : List String) :
    isStrList (.jarr (kp.map .jstr)) = true := by
  induction kp with
  | nil => rfl
  | cons x xs ih => simp_all [isStrList, isJStr]

theorem map_asJStr (kp : List String) :
    (kp.map JValue.jstr).map asJStr = kp := by
  induction kp with
  | nil => rfl
  | cons x xs ih => simp [asJStr, ih]

theorem map_asJStr_comp (kp : List String) :
    kp.map (asJStr ∘ JValue.jstr) = kp := by
  induction kp with
  | nil => rfl
  | cons x xs ih => simp [asJStr, ih, Function.comp]

/-- Evaluation of the validator on a well-typed payload shape: everything
reduces to the satisfaction coercion and the range check. -/
theorem parse_output_payloadObj (reply needs : String) (kp : List String)
    (sat : JValue) :
    parse_output (.ok (payloadObj reply sat kp needs)) =
      match pyInt sat with
      | .error _ => ⟨none, some "satisfaction must be int 0-100."⟩
      | .ok n =>
        if n < 0 ∨ 100 < n then ⟨none, some "satisfaction out of range."⟩
        else ⟨some ⟨reply, n, kp, needs⟩, none⟩ := by
  simp only [parse_output, payloadObj, jhasKey, jlookup, List.any, List.foldl,
    isJStr]
  simp [isStrList_map, map_asJStr, map_asJStr_comp, asJStr]

/-- C5: for every payload with the four required fields and well-typed
reply/key-points/needs values, the validator accepts satisfaction 0 and 100
and rejects -1 and 101 with the out-of-range error (never clamping); and the
decode of the text
`{"reply_zh_tw":"r","satisfaction":"95","key_points":["a","b"],"needs_from_other":"n"}`
(whose satisfaction field is the JSON *string* "95") validates with
satisfaction coerced to the integer 95. -/
theorem c5_theorem (reply needs : String) (kp : List String) :
    parse_output (.ok (payloadObj reply (.jint 0) kp needs)) =
      ⟨some ⟨reply, 0, kp, needs⟩, none⟩ ∧
    parse_output (.ok (payloadObj reply (.jint 100) kp needs)) =
      ⟨some ⟨reply, 100, kp, needs⟩, none⟩ ∧
    parse_output (.ok (payloadObj reply (.jint (-1)) kp needs)) =
      ⟨none, some "satisfaction out of range."⟩ ∧
    parse_output (.ok (payloadObj reply (.jint 101) kp needs)) =
      ⟨none, some "satisfaction out of range."⟩ ∧
    parse_output (.ok (payloadObj "r" (.jstr "95") ["a", "b"] "n")) =
      ⟨some ⟨"r", 95, ["a", "b"], "n"⟩, none⟩ := by
  refine ⟨?_, ?_, ?_, ?_, rfl⟩ <;>
    · rw [parse_output_payloadObj]
      norm_num [pyInt]

/-- C10: the satisfaction coercion is exactly Python `int()`: a float such as
95.7 is truncated to 95 and accepted, the boolean `true` is accepted as 1, a
non-integer string such as "95.5" and non-coercible values such as `null` or
a list are rejected with the coercion error; in general, any value `int()`
accepts with a result inside [0,100] validates with that integer, any value
`int()` accepts with a result outside [0,100] is rejected as out of range,
and any value on which `int()` raises is rejected with the coercion error. -/
theorem c10_theorem (reply needs : String) (kp : List String) :
    parse_output (.ok (payloadObj reply (.jfloat (mkRat 957 10)) kp needs)) =
      ⟨some ⟨reply, 95, kp, needs⟩, none⟩ ∧
    parse_output (.ok (payloadObj reply (.jbool true) kp needs)) =
      ⟨some ⟨reply, 1, kp, needs⟩, none⟩ ∧
    parse_output (.ok (payloadObj reply (.jstr "95.5") kp needs)) =
      ⟨none, some "satisfaction must be int 0-100."⟩ ∧
    parse_output (.ok (payloadObj reply .jnull kp needs)) =
      ⟨none, some "satisfaction must be int 0-100."⟩ ∧
    parse_output (.ok (payloadObj reply (.jarr []) kp needs)) =
      ⟨none, some "satisfaction must be int 0-100."⟩ ∧
    (∀ sat m, pyInt sat = .ok m → 0 ≤ m → m ≤ 100 →
      parse_output (.ok (payloadObj reply sat kp needs)) =
        ⟨some ⟨reply, m, kp, needs⟩, none⟩) ∧
    (∀ sat m, pyInt sat = .ok m → (m < 0 ∨ 100 < m) →
      parse_output (.ok (payloadObj reply sat kp needs)) =
        ⟨none, some "satisfaction out of range."⟩) ∧
    (∀ sat e, pyInt sat = .error e →
      parse_output (.ok (payloadObj reply sat kp needs)) =
        ⟨none, some "satisfaction must be int 0-100."⟩) := by
  have hf : pyInt (.jfloat (mkRat 957 10)) = .ok 95 := rfl
  have hb : pyInt (.jbool true) = .ok 1 := rfl
  have hs1 : pyInt (.jstr "95.5") = .error "ValueError" := rfl
  have hn : pyInt .jnull = .error "TypeError" := rfl
  have ha : pyInt (.jarr []) = .error "TypeError" := rfl
  refine ⟨?_, ?_, ?_, ?_, ?_, ?_, ?_, ?_⟩
  · rw [parse_output_payloadObj, hf]
    norm_num
  · rw [parse_output_payloadObj, hb]
    norm_num
  · rw [parse_output_payloadObj, hs1]
  · rw [parse_output_payloadObj, hn]
  · rw [parse_output_payloadObj, ha]
  · intro sat m hm h0 h100
    rw [parse_output_payloadObj, hm]
    simp
    omega
  · intro sat m hm hout
    rw [parse_output_payloadObj, hm]
    simp [hout]
  · intro sat e he
    rw [parse_output_payloadObj, he]

theorem c10_witness :
    parse_output (.ok (payloadObj "r" (.jint 50) ["k"] "n")) =
      ⟨some ⟨"r", 50, ["k"], "n"⟩, none⟩ :=
  ( c10_theorem "r" "n" ["k"]).2.2.2.2.2.1 (.jint 50) 50 rfl (by norm_num)
    (by norm_num)

/-- The points one older entry contributes, as the specification words it:
parse-error entries contribute nothing; otherwise the entry's key points, or
its reply text when it has no key points (or nothing, when the reply is also
empty). -/
def specEntryPoints (e : Entry) : List String :=
  if truthyOptStr e.parse_error then []
  else
    let kp := e.key_points.getD []
    if ¬ kp.isEmpty then kp
    else
      let reply := (e.parsed.map Payload.reply_zh_tw).getD ""
      if ¬ reply.isEmpty then [reply] else []

/-- The collected point sequence, as the specification words it: walk the
older entries in original order and concatenate each entry's contribution. -/
def specPoints (older : List Entry) : List String :=
  older.flatMap specEntryPoints

/-- The well-formedness invariant every entry built by `mkEntry` satisfies:
the projected `key_points` field agrees with the parsed payload. -/
def entryWF (e : Entry) : Prop :=
  e.key_points = e.parsed.map Payload.key_points

theorem mkEntry_wf (turn : Nat) (agentName : String) (attempt : Nat)
    (raw : String) (pr : ParseResult) :
    entryWF (mkEntry turn agentName attempt raw pr) := rfl

instance entryWF_decidable (e : Entry) : Decidable (entryWF e) :=
  decidable_of_iff (e.key_points = e.parsed.map Payload.key_points) Iff.rfl

theorem collectStep_eq (acc : List String) (e : Entry) (he : entryWF e) :
    collectStep acc e = acc ++ specEntryPoints e := by
  unfold entryWF at he
  unfold collectStep specEntryPoints
  cases hp : e.parsed <;>
    simp only [hp, he, Option.map_none', Option.map_some', Option.getD_some,
      Option.getD_none] <;>
    split_ifs <;> simp_all

theorem collect_go (older : List Entry)
    (hkp : ∀ e ∈ older, entryWF e) :
    ∀ acc, older.foldl collectStep acc = acc ++ specPoints older := by
  induction older with
  | nil => intro acc; simp [specPoints]
  | cons e rest ih =>
    intro acc
    have he : entryWF e := hkp e (List.mem_cons_self e rest)
    have hrest : ∀ x ∈ rest, entryWF x := fun x hx => hkp x (List.mem_cons_of_mem e hx)
    simp only [List.foldl_cons, ih hrest, collectStep_eq acc e he, specPoints,
      List.flatMap_cons, List.append_assoc]

/-- On well-formed entries the source's collection loop computes exactly the
specification's point sequence. -/
theorem collectPoints_eq_specPoints (older : List Entry)
    (hkp : ∀ e ∈ older, entryWF e) :
    collectPoints older = specPoints older := by
  simpa using collect_go older hkp []

theorem contextRecent_nil (cfg : Config) : contextRecent cfg [] = [] := by
  simp [contextRecent]

/-- The second component of `_summarize_and_trim_context` is always the
recent tail. -/
theorem summarize_snd (cfg : Config) (ctx : List Entry) :
    (summarize_and_trim_context cfg ctx).2 = contextRecent cfg ctx := by
  simp only [summarize_and_trim_context]
  split
  · rename_i h
    rw [List.isEmpty_iff.mp h, contextRecent_nil]
  · split
    · rfl
    · split <;> rfl

/-- C6 (amended): for every context of well-formed entries, the compaction
returns the recent tail unchanged; the summary is `None` when there are no
older entries or no points were collected; when points were collected it is
the bulleted rendering of the collected sequence, truncated to the last
`summary_max_points` points when that setting is positive and — departing
from the claim — left *untruncated* when `summary_max_points ≤ 0`. -/
theorem c6_theorem (cfg : Config) (ctx : List Entry)
    (hkp : ∀ e ∈ ctx, entryWF e) :
    (summarize_and_trim_context cfg ctx).2 = contextRecent cfg ctx ∧
    (contextOlder cfg ctx = [] ∨ specPoints (contextOlder cfg ctx) = [] →
      (summarize_and_trim_context cfg ctx).1 = none) ∧
    (specPoints (contextOlder cfg ctx) ≠ [] → 0 < cfg.summary_max_points →
      (summarize_and_trim_context cfg ctx).1 =
        some (String.intercalate "\n"
          ((lastN cfg.summary_max_points.toNat
              (specPoints (contextOlder cfg ctx))).map (fun p => "- " ++ p)))) ∧
    (specPoints (contextOlder cfg ctx) ≠ [] → cfg.summary_max_points ≤ 0 →
      (summarize_and_trim_context cfg ctx).1 =
        some (String.intercalate "\n"
          ((specPoints (contextOlder cfg ctx)).map (fun p => "- " ++ p)))) := by
  refine ⟨summarize_snd cfg ctx, ?_, ?_, ?_⟩
  all_goals
    have holder : ∀ e ∈ contextOlder cfg ctx, entryWF e := by
      intro e hemem
      apply hkp
      unfold contextOlder at hemem
      split at hemem
      · exact hemem
      · exact (List.take_sublist _ _).mem hemem
    have hcoll := collectPoints_eq_specPoints (contextOlder cfg ctx) holder
  · intro h
    simp only [summarize_and_trim_context]
    split
    · rfl
    · rename_i hne
      split
      · rfl
      · rename_i hone
        split
        · rfl
        · rename_i hpne
          rcases h with h | h
          · exact absurd (List.isEmpty_iff.mpr h) (by simpa using hone)
          · rw [hcoll, h] at hpne
            simp at hpne
  · intro hpts hM
    simp only [summarize_and_trim_context]
    split
    · rename_i h
      rw [List.isEmpty_iff.mp h] at hpts
      have : contextOlder cfg [] = [] := by
        simp [contextOlder]
      rw [this] at hpts
      simp [specPoints] at hpts
    · split
      · rename_i hone
        rw [List.isEmpty_iff.mp hone] at hpts
        simp [specPoints] at hpts
      · split
        · rename_i hpe
          rw [List.isEmpty_iff.mp (by simpa using hpe : (collectPoints (contextOlder cfg ctx)).isEmpty = true)] at hcoll
          exact absurd hcoll.symm hpts
        · simp only [hcoll]
  · intro hpts hM
    simp only [summarize_and_trim_context]
    split
    · rename_i h
      rw [List.isEmpty_iff.mp h] at hpts
      have : contextOlder cfg [] = [] := by
        simp [contextOlder]
      rw [this] at hpts
      simp [specPoints] at hpts
    · split
      · rename_i hone
        rw [List.isEmpty_iff.mp hone] at hpts
        simp [specPoints] at hpts
      · split
        · rename_i hpe
          rw [List.isEmpty_iff.mp (by simpa using hpe : (collectPoints (contextOlder cfg ctx)).isEmpty = true)] at hcoll
          exact absurd hcoll.symm hpts
        · simp only [hcoll]
          first
          | rfl
          | rw [if_neg (by omega : ¬ 0 < cfg.summary_max_points)]

/-- A valid entry whose payload carries the given key points. -/
def entryKP (kps : List String) : Entry :=
  mkEntry 1 "Agent A" 1 "raw" ⟨some ⟨"r", 95, kps, "n"⟩, none⟩

/-- A configuration with a recent tail of one entry and
`summary_max_points = 0`. -/
def cfgM0 : Config :=
  { cfgStale with summary_keep_last := 1, summary_max_points := 0 }

/-- A two-entry context: one older entry carrying two key points, one
recent-tail entry. -/
def ctxM0 : List Entry :=
  [entryKP ["p1", "p2"], entryKP []]

/-- C6 counterexample.  With `summary_max_points = 0` the claim's "keeping
only the last M (summary_max_points) collected points" demands an empty
point list, but the source's `if self.summary_max_points > 0` guard skips
truncation entirely: both collected points are rendered. -/
theorem c6_counterexample :
    cfgM0.summary_max_points = 0 ∧
    (summarize_and_trim_context cfgM0 ctxM0).1 = some "- p1\n- p2" := by
  decide

/-- A configuration with an empty recent tail (`summary_keep_last = 0`),
so the whole context counts as older, and `summary_max_points = 12`. -/
def cfgW6 : Config :=
  { cfgStale with summary_keep_last := 0 }

/-- One valid entry carrying twenty key points. -/
def ctxW6 : List Entry :=
  [entryKP ["p1", "p2", "p3", "p4", "p5", "p6", "p7", "p8", "p9", "p10",
            "p11", "p12", "p13", "p14", "p15", "p16", "p17", "p18", "p19",
            "p20"]]

theorem c6_witness :
    (summarize_and_trim_context cfgW6 ctxW6).1 =
      some "- p9\n- p10\n- p11\n- p12\n- p13\n- p14\n- p15\n- p16\n- p17\n- p18\n- p19\n- p20" := by
  have h := (c6_theorem cfgW6 ctxW6 (by decide)).2.2.1 (by decide) (by decide)
  rw [h]
  rfl

theorem contextKeep_pos (cfg : Config) (h : 1 ≤ cfg.summary_keep_last) :
    1 ≤ contextKeep cfg := by
  unfold contextKeep
  rw [max_eq_right (by omega : (0 : Int) ≤ cfg.summary_keep_last)]
  omega

/-- With a positive recent-tail size, the recent tail is empty exactly when
the whole Context is. -/
theorem summarize_snd_empty_iff (cfg : Config) (ctx : List Entry)
    (h : 1 ≤ cfg.summary_keep_last) :
    (summarize_and_trim_context cfg ctx).2 = [] ↔ ctx = [] := by
  rw [summarize_snd]
  constructor
  · intro hrec
    by_contra hctx
    have hk := contextKeep_pos cfg h
    have hlen : 0 < ctx.length := List.length_pos.mpr hctx
    have : contextRecent cfg ctx = ctx.drop (ctx.length - contextKeep cfg) := by
      unfold contextRecent
      rw [if_neg (by omega)]
    rw [this] at hrec
    have := congrArg List.length hrec
    rw [List.length_drop] at this
    simp at this
    omega
  · intro hctx
    rw [hctx, contextRecent_nil]

/-- A configuration whose recent tail is disabled (`summary_keep_last = 0`). -/
def cfg9 : Config :=
  { cfgStale with summary_keep_last := 0 }

/-- The Agent A persona (the prompt text plays no role in the property). -/
def agentA9 : AgentConfig :=
  ⟨"Agent A", "sys"⟩

/-- C9 counterexample.  With `summary_keep_last = 0` — a value the CLI
accepts — the recent tail handed to `build_messages` is empty on *every*
turn, so after round 1 (Context non-empty, all outputs valid) the next
turn's envelope still contains the initial user prompt in place of any
transcript rendering. -/
theorem c9_counterexample :
    (stepRound cfg9 envAll95 1 initState).context ≠ [] ∧
    (summarize_and_trim_context cfg9
        (stepRound cfg9 envAll95 1 initState).context).2 = [] ∧
    ⟨"user", "start"⟩ ∈
      build_messages agentA9
        (summarize_and_trim_context cfg9
          (stepRound cfg9 envAll95 1 initState).context).2
        "start" false
        (summarize_and_trim_context cfg9
          (stepRound cfg9 envAll95 1 initState).context).1
        (some "t") := by
  decide

/-- C9 (amended): provided `summary_keep_last ≥ 1`, the initial user prompt
is included — in place of rendered transcript turns — exactly when the
Context is empty, which happens only on the very first agent turn of the
run: the recent tail is empty iff the Context is, every agent turn appends
exactly one entry to the Context, and on a non-empty tail the envelope
renders the tail entries through `renderEntry` instead of the initial
prompt.  (With `summary_keep_last ≤ 0` the tail is always empty and the
prompt recurs every turn, as the counterexample shows.) -/
theorem c9_theorem (cfg : Config) (h : 1 ≤ cfg.summary_keep_last) :
    (∀ ctx : List Entry,
      ((summarize_and_trim_context cfg ctx).2 = [] ↔ ctx = [])) ∧
    (∀ (env : Env) (t : Nat) (a : String) (tr ctx : List Entry),
      (run_agent_turn env t a tr ctx).2.2 = ctx ++ [turn_entry env t a]) ∧
    (∀ (agent : AgentConfig) (ctx : List Entry) (ip : String) (strict : Bool)
        (sm topic : Option String),
      build_messages agent (summarize_and_trim_context cfg ctx).2 ip strict
          sm topic =
        if ctx = [] then msgHeader agent strict sm topic ++ [⟨"user", ip⟩]
        else msgHeader agent strict sm topic ++
          ((summarize_and_trim_context cfg ctx).2).map (renderEntry agent)) := by
  refine ⟨fun ctx => summarize_snd_empty_iff cfg ctx h,
    fun env t a tr ctx => run_agent_turn_context env t a tr ctx, ?_⟩
  intro agent ctx ip strict sm topic
  by_cases hctx : ctx = []
  · rw [if_pos hctx]
    have hrec : (summarize_and_trim_context cfg ctx).2 = [] :=
      (summarize_snd_empty_iff cfg ctx h).mpr hctx
    rw [hrec]
    simp [build_messages]
  · rw [if_neg hctx]
    have hrec : (summarize_and_trim_context cfg ctx).2 ≠ [] :=
      fun hr => hctx ((summarize_snd_empty_iff cfg ctx h).mp hr)
    unfold build_messages
    rw [if_neg (by simpa using hrec)]

theorem c9_witness :
    ((summarize_and_trim_context cfg5 [entryKP ["p1"]]).2 = [] ↔
      ([entryKP ["p1"]] : List Entry) = []) :=
  (c9_theorem cfg5 (by norm_num [cfg5, cfgStale])).1 [entryKP ["p1"]]

/-- C7: the fallback endpoint is consulted if and only if the primary
endpoint answers 404.  On any other status exactly one request is issued;
a non-success primary status is raised to the caller.  On a 404 the same
model, messages and streaming flag are reissued against the fallback path
with the options map translated to the top-level layout, and a non-success
fallback status is raised; otherwise the fallback stream is consumed under
the fallback dialect. -/
theorem c7_theorem (model : String) (messages : List Message)
    (options : Option (List (String × JValue)))
    (jloads : String → Option JValue) (primary fb : HttpResponse) :
    (primary.status_code ≠ 404 →
      (chat model messages options jloads primary fb).1 =
        [⟨"/api/chat", model, messages, true, nestedOptions options⟩] ∧
      (nonSuccess primary.status_code = true →
        (chat model messages options jloads primary fb).2 =
          .error "HTTPError") ∧
      (nonSuccess primary.status_code = false →
        (chat model messages options jloads primary fb).2 =
          chatStreamAux jloads false primary.lines "" [] [])) ∧
    (primary.status_code = 404 →
      (chat model messages options jloads primary fb).1 =
        [⟨"/api/chat", model, messages, true, nestedOptions options⟩,
         ⟨"/v1/chat/completions", model, messages, true, flatOptions options⟩] ∧
      (nonSuccess fb.status_code = true →
        (chat model messages options jloads primary fb).2 =
          .error "HTTPError") ∧
      (nonSuccess fb.status_code = false →
        (chat model messages options jloads primary fb).2 =
          chatStreamAux jloads true fb.lines "" [] [])) := by
  unfold chat
  constructor
  · intro h404
    rw [if_neg h404]
    exact ⟨by split <;> rfl, fun hns => by simp [hns], fun hns => by simp [hns]⟩
  · intro h404
    rw [if_pos h404]
    exact ⟨by split <;> rfl, fun hns => by simp [hns], fun hns => by simp [hns]⟩

/-- A decoder oracle that fails on every line. -/
def jnone : String → Option JValue := fun _ => none

theorem c7_witness :
    (chat "m" [] none jnone ⟨404, []⟩ ⟨500, []⟩).1 =
      [⟨"/api/chat", "m", [], true, nestedOptions none⟩,
       ⟨"/v1/chat/completions", "m", [], true, flatOptions none⟩] ∧
    (chat "m" [] none jnone ⟨404, []⟩ ⟨500, []⟩).2 = .error "HTTPError" := by
  have h := ( c7_theorem "m" [] none jnone ⟨404, []⟩ ⟨500, []⟩).2 rfl
  exact ⟨h.1, h.2.1 rfl⟩

/-- Concatenation of the fragments handed to the callback, in invocation
order. -/
def concatCalls (xs : List String) : String :=
  xs.foldl (fun a b => a ++ b) ""

theorem concatCalls_append_one (xs : List String) (s : String) :
    concatCalls (xs ++ [s]) = concatCalls xs ++ s := by
  simp [concatCalls, List.foldl_append]

/-- The chunk-handling step (`if chunk: full_text += chunk; on_chunk(chunk)`)
preserves the aggregation invariant and only records non-empty fragments. -/
theorem step2_ok (chunk : JValue) (f0 : String) (c0 : List String)
    (f1 : String) (c1 : List String)
    (h : (if pyTruthy chunk = true then
            match chunk with
            | JValue.jstr s => Except.ok (f0 ++ s, c0 ++ [s])
            | _ => Except.error "TypeError"
          else (Except.ok (f0, c0) : Except String (String × List String))) =
      Except.ok (f1, c1)) :
    (concatCalls c0 = f0 → concatCalls c1 = f1) ∧
    ((∀ x ∈ c0, x ≠ "") → ∀ x ∈ c1, x ≠ "") := by
  split at h
  · rename_i htr
    cases chunk <;> simp_all [pyTruthy]
    rename_i s
    obtain ⟨rfl, rfl⟩ := h
    constructor
    · intro hh
      rw [concatCalls_append_one, hh]
    · intro hh x hx
      rcases List.mem_append.mp hx with hx | hx
      · exact hh x hx
      · rw [List.mem_singleton.mp hx]
        intro hcon
        rw [hcon] at htr
        exact absurd htr (by decide)
  · simp only [Except.ok.injEq, Prod.mk.injEq] at h
    obtain ⟨rfl, rfl⟩ := h
    exact ⟨fun hh => hh, fun hh => hh⟩

/-- The state invariant one loop iteration preserves: whenever the
aggregated text equals the concatenation of the recorded callback arguments,
it still does afterwards, and callback arguments stay non-empty. -/
theorem lineStep_ok (jloads : String → Option JValue) (uo : Bool)
    (line f0 : String) (r0 c0 : List String) :
    ∀ f1 r1 c1,
      (lineStep jloads uo line f0 r0 c0 = .next f1 r1 c1 ∨
       lineStep jloads uo line f0 r0 c0 = .stop f1 r1 c1) →
      (concatCalls c0 = f0 → concatCalls c1 = f1) ∧
      ((∀ x ∈ c0, x ≠ "") → ∀ x ∈ c1, x ≠ "") := by
  intro f1 r1 c1 h
  rcases h with h | h <;>
  · simp only [lineStep] at h
    repeat' split at h
    all_goals cases h
    all_goals
      try exact ⟨fun hh => hh, fun hh => hh⟩
    all_goals
      exact step2_ok _ _ _ _ _ (by assumption)

theorem chatStreamAux_ok (jloads : String → Option JValue) (uo : Bool) :
    ∀ (lines : List String) (f0 : String) (r0 c0 : List String)
      (f : String) (r c : List String),
      chatStreamAux jloads uo lines f0 r0 c0 = .ok (f, r, c) →
      (concatCalls c0 = f0 → concatCalls c = f) ∧
      ((∀ x ∈ c0, x ≠ "") → ∀ x ∈ c, x ≠ "") := by
  intro lines
  induction lines with
  | nil =>
    intro f0 r0 c0 f r c h
    simp only [chatStreamAux, Except.ok.injEq, Prod.mk.injEq] at h
    obtain ⟨rfl, -, rfl⟩ := h
    exact ⟨fun hh => hh, fun hh => hh⟩
  | cons line rest ih =>
    intro f0 r0 c0 f r c h
    simp only [chatStreamAux] at h
    cases hstep : lineStep jloads uo line f0 r0 c0 with
    | next f1 r1 c1 =>
      rw [hstep] at h
      have h1 := lineStep_ok jloads uo line f0 r0 c0 f1 r1 c1 (Or.inl hstep)
      have h2 := ih f1 r1 c1 f r c h
      exact ⟨fun hh => h2.1 (h1.1 hh), fun hh => h2.2 (h1.2 hh)⟩
    | stop f1 r1 c1 =>
      rw [hstep] at h
      simp only [Except.ok.injEq, Prod.mk.injEq] at h
      obtain ⟨rfl, -, rfl⟩ := h
      exact lineStep_ok jloads uo line f0 r0 c0 f1 r1 c1 (Or.inr hstep)
    | fail e =>
      rw [hstep] at h
      cases h

/-- C8: on every chat call that completes without error, the fragments
handed to the callback are each non-empty and their concatenation, in
invocation order, is exactly the aggregated text the call returns. -/
theorem c8_theorem (model : String) (messages : List Message)
    (options : Option (List (String × JValue)))
    (jloads : String → Option JValue) (primary fb : HttpResponse)
    (full : String) (raws calls : List String)
    (h : (chat model messages options jloads primary fb).2 =
      .ok (full, raws, calls)) :
    concatCalls calls = full ∧ ∀ x ∈ calls, x ≠ "" := by
  have base : ∀ (uo : Bool) (lines : List String),
      chatStreamAux jloads uo lines "" [] [] = .ok (full, raws, calls) →
      concatCalls calls = full ∧ ∀ x ∈ calls, x ≠ "" := by
    intro uo lines hh
    have := chatStreamAux_ok jloads uo lines "" [] [] full raws calls hh
    exact ⟨this.1 rfl, this.2 (fun x hx => absurd hx (List.not_mem_nil x))⟩
  unfold chat at h
  split at h
  · split at h
    · cases h
    · exact base true fb.lines h
  · split at h
    · cases h
    · exact base false primary.lines h

/-- A decoder oracle for two primary-dialect records: line "A" carries the
fragment "He", line "B" carries "llo" and the done flag. -/
def jloadsW : String → Option JValue := fun s =>
  if s = "A" then some (.jobj [("message", .jobj [("content", .jstr "He")])])
  else if s = "B" then
    some (.jobj [("message", .jobj [("content", .jstr "llo")]),
                 ("done", .jbool true)])
  else none

theorem c8_witness :
    concatCalls ["He", "llo"] = "Hello" ∧
    ∀ x ∈ (["He", "llo"] : List String), x ≠ "" :=
  c8_theorem "m" [] none jloadsW ⟨200, ["A", "B"]⟩ ⟨200, []⟩ "Hello"
    ["A", "B"] ["He", "llo"] rfl

end TwoBots
